import Mathlib

/-!
Shallow embedding of the charge-history normalizer of
examples/find_vehicle.py: the functions _parse_datetime_flexible,
_extract_points_kwh_from_list, _iter_nested_lists and _extract_points_kwh,
together with the pieces of the Python runtime they rely on (datetime
construction and comparison, float parsing of strings, dict lookup,
list.sort).

Modelling conventions:
- Python numbers (int and float) are modelled by exact rationals; the
  floating-point rounding of CPython is not modelled (every numeric value
  appearing in the claims is exactly representable, and every arithmetic
  step the code performs on them - division by 1000, float coercion - is
  exact for those values).  The non-finite float literals inf and nan are
  outside the model: pyFloatOfString returns none for them.
- A datetime is a wall-clock reading (seconds since 1970-01-01 of the
  calendar fields, as a rational) plus an optional UTC offset in seconds;
  offset = none models a naive datetime, offset = some o an aware one.
  CPython orders two aware datetimes by instant (wall - offset), two naive
  ones by wall clock, and raises TypeError when one of each is compared;
  list.sort with a datetime key therefore raises TypeError exactly when
  the keys mix naive and aware values (any comparison sort compares some
  naive key with some aware key on such a list) and otherwise produces the
  stable sort by that order.
- datetime.fromisoformat is modelled on the CPython 3.10 grammar, the one
  the code is written against (it strips a trailing Z by hand):
  YYYY-MM-DD, optionally followed by any single separator character and
  HH[:MM[:SS[.fff or .ffffff]]], optionally followed by a +HH:MM[:SS] or
  -HH:MM[:SS] offset.  datetime.strptime with format %Y-%m-%d accepts a
  4-digit year and 1- or 2-digit month and day, and the whole string must
  be consumed.  Both validate the calendar date.
- Python dicts are modelled as association lists with distinct keys,
  looked up by first match.
-/

/-- Errors the modelled code can raise and not catch.  The only uncaught
exception of the normalizer is the TypeError of list.sort when it compares
a naive datetime with an aware one. -/
inductive PyErr where
  | typeError
deriving DecidableEq, Repr

/-- A Python datetime: wall-clock seconds since 1970-01-01 as read on the
calendar fields, and the utcoffset in seconds (none for a naive value). -/
structure PyDateTime where
  wall : ℚ
  off : Option ℚ
deriving DecidableEq, Repr

/-- A Python value as the normalizer sees it: the JSON-like scalars,
strings, lists and dicts, plus datetime instances (these arise when a
normalized point is placed back into a record). -/
inductive PyVal where
  | vNone
  | vBool (b : Bool)
  | vInt (n : Int)
  | vFloat (q : ℚ)
  | vStr (s : String)
  | vDt (d : PyDateTime)
  | vList (xs : List PyVal)
  | vDict (kvs : List (String × PyVal))

/-- Days from 1970-01-01 of a calendar date (proleptic Gregorian).  Only
called on validated dates with year at least 1, so the shifted year is
never negative and truncating division agrees with floor division. -/
def daysFromCivil (y m d : Int) : Int :=
  let y2 := if m ≤ 2 then y - 1 else y
  let era := y2 / 400
  let yoe := y2 - era * 400
  let mp := (m + 9) % 12
  let doy := (153 * mp + 2) / 5 + (d - 1)
  let doe := yoe * 365 + yoe / 4 - yoe / 100 + doy
  era * 146097 + doe - 719468

/-- Wall-clock seconds since the epoch of a calendar date at midnight. -/
def epochOfCivil (y m d : Int) : ℚ :=
  (daysFromCivil y m d : ℚ) * 86400

/-- Leap year of the Gregorian calendar. -/
def isLeapYear (y : Int) : Bool :=
  y % 4 == 0 && (y % 100 != 0 || y % 400 == 0)

/-- Days in a month. -/
def daysInMonth (y m : Int) : Int :=
  if m == 2 then (if isLeapYear y then 29 else 28)
  else if m == 4 || m == 6 || m == 9 || m == 11 then 30
  else 31

/-- A valid calendar date of datetime (year 1 to 9999). -/
def isValidDate (y m d : Int) : Bool :=
  1 ≤ y && y ≤ 9999 && 1 ≤ m && m ≤ 12 && 1 ≤ d && d ≤ daysInMonth y m

/-- Smallest epoch value datetime.fromtimestamp accepts (0001-01-01). -/
def minEpoch : ℚ := epochOfCivil 1 1 1

/-- First epoch value past the datetime range (10000-01-01). -/
def maxEpochExcl : ℚ := epochOfCivil 10000 1 1

/-- datetime.fromtimestamp(v, tz=timezone.utc): the UTC-aware datetime of
an epoch value, or none when the value is outside the supported range
(the OverflowError or ValueError the code catches). -/
def pyFromTimestamp (v : ℚ) : Option PyDateTime :=
  if minEpoch ≤ v ∧ v < maxEpochExcl then some ⟨v, some 0⟩ else none

/-- Numeric value of a digit character. -/
def digitVal (c : Char) : Option Nat :=
  if c.isDigit then some (c.toNat - 48) else none

/-- Read exactly n digit characters into a number. -/
def readNDigits : Nat → Nat → List Char → Option (Nat × List Char)
  | 0, acc, cs => some (acc, cs)
  | _ + 1, _, [] => none
  | n + 1, acc, c :: cs =>
    match digitVal c with
    | some d => readNDigits n (acc * 10 + d) cs
    | none => none

/-- Read one or two digit characters (greedily) into a number. -/
def readOneOrTwoDigits : List Char → Option (Nat × List Char)
  | [] => none
  | c :: cs =>
    match digitVal c with
    | none => none
    | some d =>
      match cs with
      | c2 :: cs2 =>
        match digitVal c2 with
        | some d2 => some (d * 10 + d2, cs2)
        | none => some (d, cs)
      | [] => some (d, [])

/-- Consume one expected character. -/
def expectChar (c : Char) : List Char → Option (List Char)
  | [] => none
  | x :: xs => if x = c then some xs else none

/-- Take the longest prefix of digits, returning them and the rest. -/
def takeDigits : List Char → List Char × List Char
  | [] => ([], [])
  | c :: cs =>
    if c.isDigit then
      let (ds, rest) := takeDigits cs
      (c :: ds, rest)
    else ([], c :: cs)

/-- Numeric value of a digit list (most significant first). -/
def digitsToNat : List Char → Nat → Nat
  | [], acc => acc
  | c :: cs, acc => digitsToNat cs (acc * 10 + (c.toNat - 48))

/-- Parse HH[:MM[:SS[.fff or .ffffff]]], the CPython _parse_hh_mm_ss_ff
grammar, into seconds; the whole character list must be consumed and the
components must form a valid time of day. -/
def parseHmsFrac (cs : List Char) : Option ℚ :=
  match readNDigits 2 0 cs with
  | none => none
  | some (hh, cs1) =>
    let comps : Option (Nat × Nat × ℚ) :=
      match cs1 with
      | [] => some (0, 0, 0)
      | ':' :: cs2 =>
        match readNDigits 2 0 cs2 with
        | none => none
        | some (mm, cs3) =>
          match cs3 with
          | [] => some (mm, 0, 0)
          | ':' :: cs4 =>
            match readNDigits 2 0 cs4 with
            | none => none
            | some (ss, cs5) =>
              match cs5 with
              | [] => some (mm, ss, 0)
              | '.' :: cs6 =>
                let (ds, rest) := takeDigits cs6
                if rest = [] ∧ (ds.length = 3 ∨ ds.length = 6) then
                  some (mm, ss, (digitsToNat ds 0 : ℚ) / (10 : ℚ) ^ ds.length)
                else none
              | _ => none
          | _ => none
      | _ => none
    match comps with
    | none => none
    | some (mm, ss, frac) =>
      if hh ≤ 23 ∧ mm ≤ 59 ∧ ss ≤ 59 then
        some ((hh * 3600 + mm * 60 + ss : Nat) + frac)
      else none

/-- Split a character list at its first '+' or '-', keeping the sign. -/
def splitAtSign : List Char → List Char × Option (Char × List Char)
  | [] => ([], none)
  | c :: cs =>
    if c = '+' ∨ c = '-' then ([], some (c, cs))
    else
      let (pre, post) := splitAtSign cs
      (c :: pre, post)

/-- Parse a +HH:MM[:SS] utcoffset (seconds); CPython additionally allows a
.ffffff fraction, not modelled.  The timezone constructor restricts the
offset to strictly less than 24 hours in magnitude. -/
def parseTzOffset (sign : Char) (cs : List Char) : Option ℚ :=
  match readNDigits 2 0 cs with
  | none => none
  | some (hh, cs1) =>
    match cs1 with
    | ':' :: cs2 =>
      match readNDigits 2 0 cs2 with
      | none => none
      | some (mm, cs3) =>
        let secs : Option Nat :=
          match cs3 with
          | [] => some 0
          | ':' :: cs4 =>
            match readNDigits 2 0 cs4 with
            | some (ss, []) => some ss
            | _ => none
          | _ => none
        match secs with
        | none => none
        | some ss =>
          let total : ℚ := (hh * 3600 + mm * 60 + ss : Nat)
          if total < 86400 then
            some (if sign = '-' then -total else total)
          else none
    | _ => none

/-- datetime.fromisoformat, CPython 3.10 grammar (see the header note):
the date part YYYY-MM-DD, then optionally any one separator character
followed by a time, itself optionally followed by a signed utcoffset. -/
def pyFromIsoformat (s : String) : Option PyDateTime :=
  let cs := s.toList
  match readNDigits 4 0 cs with
  | none => none
  | some (y, cs1) =>
    match expectChar '-' cs1 with
    | none => none
    | some cs2 =>
      match readNDigits 2 0 cs2 with
      | none => none
      | some (mo, cs3) =>
        match expectChar '-' cs3 with
        | none => none
        | some cs4 =>
          match readNDigits 2 0 cs4 with
          | none => none
          | some (d, cs5) =>
            if isValidDate y mo d then
              match cs5 with
              | [] => some ⟨epochOfCivil y mo d, none⟩
              | _sep :: rest =>
                let (timePart, offPart) := splitAtSign rest
                match parseHmsFrac timePart with
                | none => none
                | some tsecs =>
                  match offPart with
                  | none => some ⟨epochOfCivil y mo d + tsecs, none⟩
                  | some (sign, offCs) =>
                    match parseTzOffset sign offCs with
                    | none => none
                    | some o => some ⟨epochOfCivil y mo d + tsecs, some o⟩
            else none

/-- datetime.strptime(v, seen with the format string of the code,
year dash month dash day): 4-digit year, 1- or 2-digit month and day, the
whole string consumed, a valid calendar date; the code then attaches
timezone.utc with replace. -/
def pyStrptimeYmd (s : String) : Option PyDateTime :=
  let cs := s.toList
  match readNDigits 4 0 cs with
  | none => none
  | some (y, cs1) =>
    match expectChar '-' cs1 with
    | none => none
    | some cs2 =>
      match readOneOrTwoDigits cs2 with
      | none => none
      | some (mo, cs3) =>
        match expectChar '-' cs3 with
        | none => none
        | some cs4 =>
          match readOneOrTwoDigits cs4 with
          | none => none
          | some (d, cs5) =>
            if cs5 = [] ∧ isValidDate y mo d then
              some ⟨epochOfCivil y mo d, some 0⟩
            else none

/-- The numeric view Python's isinstance(v, (int, float)) admits: ints,
floats, and bools (bool is a subclass of int). -/
def toNum : PyVal → Option ℚ
  | .vInt n => some n
  | .vFloat q => some q
  | .vBool b => some (if b then 1 else 0)
  | _ => none

/-- Whether isinstance(v, (int, float)) holds. -/
def isNumericVal (v : PyVal) : Bool := (toNum v).isSome

/-- The epoch branch of _parse_datetime_flexible: values above one
trillion are taken as milliseconds, others as seconds. -/
def parseEpochNum (q : ℚ) : Option PyDateTime :=
  if q > 1000000000000 then pyFromTimestamp (q / 1000) else pyFromTimestamp q

/-- float(s) on a string: optional sign, decimal digits with an optional
point and an optional exponent (non-finite literals are outside the
model, see the header note). -/
def pyFloatOfString (s : String) : Option ℚ :=
  let cs := (s.trim).toList
  let (sign, cs) : ℚ × List Char :=
    match cs with
    | '+' :: rest => (1, rest)
    | '-' :: rest => (-1, rest)
    | rest => (1, rest)
  let (intDs, cs) := takeDigits cs
  let (fracDs, cs) :=
    match cs with
    | '.' :: rest => takeDigits rest
    | rest => ([], rest)
  if intDs = [] ∧ fracDs = [] then none
  else
    let mant : ℚ :=
      (digitsToNat intDs 0 : ℚ) + (digitsToNat fracDs 0 : ℚ) / (10 : ℚ) ^ fracDs.length
    match cs with
    | [] => some (sign * mant)
    | e :: rest =>
      if e = 'e' ∨ e = 'E' then
        let (esign, rest) : Bool × List Char :=
          match rest with
          | '+' :: r => (false, r)
          | '-' :: r => (true, r)
          | r => (false, r)
        let (eDs, rest) := takeDigits rest
        if eDs = [] ∨ rest ≠ [] then none
        else
          let ex := digitsToNat eDs 0
          some (sign * (if esign then mant / (10 : ℚ) ^ ex else mant * (10 : ℚ) ^ ex))
      else none

/-- _parse_datetime_flexible of examples/find_vehicle.py: none for None;
epoch interpretation for ints, floats and bools; for strings, strip, map
a trailing Z to +00:00, try fromisoformat, then strptime with the
year-month-day format; none for every other type (datetime instances
included). -/
def parseDatetimeFlexible : PyVal → Option PyDateTime
  | .vNone => none
  | .vInt n => parseEpochNum n
  | .vFloat q => parseEpochNum q
  | .vBool b => parseEpochNum (if b then 1 else 0)
  | .vStr s =>
    let v := s.trim
    if v = "" then none
    else
      let v := if v.endsWith "Z" then v.dropRight 1 ++ "+00:00" else v
      match pyFromIsoformat v with
      | some d => some d
      | none => pyStrptimeYmd v
  | _ => none

/-- Lookup in a Python dict modelled as an association list. -/
def dictGet (kvs : List (String × PyVal)) (k : String) : Option PyVal :=
  match kvs with
  | [] => none
  | (k2, v) :: rest => if k2 = k then some v else dictGet rest k

/-- The ordered timestamp field names of _extract_points_kwh_from_list. -/
def timeKeys : List String :=
  ["timestamp", "time", "date", "start_date", "start_time",
   "charging_start_time", "session_date", "end_time"]

/-- The ordered energy field names of _extract_points_kwh_from_list. -/
def energyKeys : List String :=
  ["charge_energy_added", "energy_added", "kwh", "energy", "charged_kwh",
   "energy_kWh", "charger_energy", "total_energy_wh", "total_energy_Wh"]

/-- The timestamp loop of _extract_points_kwh_from_list: for each field
name in order, when the field is present its value is parsed; a
successful parse breaks out of the loop, a failed one leaves the loop
running over the remaining field names. -/
def whenLoop (item : List (String × PyVal)) : List String → Option PyDateTime
  | [] => none
  | tk :: rest =>
    match dictGet item tk with
    | none => whenLoop item rest
    | some v =>
      match parseDatetimeFlexible v with
      | some d => some d
      | none => whenLoop item rest

/-- The timestamp of a record, per the code's time-key loop. -/
def findWhen (item : List (String × PyVal)) : Option PyDateTime :=
  whenLoop item timeKeys

/-- The first energy field name present in a record, with its value (the
energy loop breaks unconditionally after the first present name). -/
def firstEnergy (item : List (String × PyVal)) : List String → Option (String × PyVal)
  | [] => none
  | ek :: rest =>
    match dictGet item ek with
    | none => firstEnergy item rest
    | some v => some (ek, v)

/-- The try-block of the energy loop's body: a string value is parsed as
a float (a failure is the caught exception), a field name ending in wh
(case-insensitively) with a numeric value is divided by 1000, and the
result is coerced to float (failure caught, yielding none). -/
def parseEnergyVal (ek : String) (v : PyVal) : Option ℚ :=
  let val1 : Option PyVal :=
    match v with
    | .vStr s => (pyFloatOfString s).map PyVal.vFloat
    | w => some w
  match val1 with
  | none => none
  | some w =>
    let w2 :=
      if (ek.toLower).endsWith "wh" then
        match toNum w with
        | some q => PyVal.vFloat (q / 1000)
        | none => w
      else w
    toNum w2

/-- The energy of a record, per the code's energy-key loop. -/
def findEnergy (item : List (String × PyVal)) : Option ℚ :=
  match firstEnergy item energyKeys with
  | none => none
  | some (ek, v) => parseEnergyVal ek v

/-- A normalized point: the parsed datetime and the energy in kWh. -/
abbrev Point := PyDateTime × ℚ

/-- One loop body of _extract_points_kwh_from_list: non-dict items are
skipped, then the timestamp and the energy are extracted; the record
contributes a point only when both succeed. -/
def parseItem : PyVal → Option Point
  | .vDict kvs =>
    match findWhen kvs with
    | none => none
    | some d =>
      match findEnergy kvs with
      | none => none
      | some e => some (d, e)
  | _ => none

/-- The sort key Python compares: two aware datetimes compare by instant
(wall minus offset), two naive ones by wall clock. -/
def instantOf (d : PyDateTime) : ℚ := d.wall - (d.off.getD 0)

/-- The sort key of a point. -/
def ptKey (p : Point) : ℚ := instantOf p.1

/-- The order list.sort uses on points whose keys are comparable. -/
def ptLe (p q : Point) : Prop := ptKey p ≤ ptKey q

instance : DecidableRel ptLe := fun p q => inferInstanceAs (Decidable (ptKey p ≤ ptKey q))

instance : IsTotal Point ptLe := ⟨fun p q => le_total (ptKey p) (ptKey q)⟩

instance : IsTrans Point ptLe := ⟨fun _ _ _ h1 h2 => le_trans h1 h2⟩

/-- Whether two datetimes are comparable in Python: both aware or both
naive (comparing one of each raises TypeError). -/
def sameKind (a b : PyDateTime) : Bool := a.off.isSome == b.off.isSome

/-- Whether all sort keys of a point list are pairwise comparable. -/
def allSameKind : List Point → Bool
  | [] => true
  | p :: rest => rest.all (fun q => sameKind p.1 q.1)

/-- points.sort(key=lambda p: p[0]): Python's stable sort by the datetime
key; it raises TypeError exactly when the keys mix naive and aware
datetimes (see the header note), and otherwise sorts stably by the
datetime order. -/
def pySortPoints (ps : List Point) : Except PyErr (List Point) :=
  if allSameKind ps then .ok (List.insertionSort ptLe ps) else .error .typeError

/-- _extract_points_kwh_from_list: parse each record, collect the points
of the records where both extractions succeed, and sort them. -/
def extractPointsKwhFromList (items : List PyVal) : Except PyErr (List Point) :=
  pySortPoints (items.filterMap parseItem)

/-- Whether a value is a dict. -/
def isDict : PyVal → Bool
  | .vDict _ => true
  | _ => false

/-- Whether every element of a list is a dict. -/
def allDicts (xs : List PyVal) : Bool := xs.all isDict

mutual
/-- _iter_nested_lists: a list all of whose elements are dicts is yielded
itself (its elements are not descended into); a dict is searched through
its values in order; any other list is searched through its elements in
order; scalars yield nothing. -/
def iterNestedLists : PyVal → List (List PyVal)
  | .vList xs => if allDicts xs then [xs] else iterNestedInList xs
  | .vDict kvs => iterNestedInDict kvs
  | _ => []
/-- The recursion of _iter_nested_lists over the elements of a
non-homogeneous list. -/
def iterNestedInList : List PyVal → List (List PyVal)
  | [] => []
  | x :: xs => iterNestedLists x ++ iterNestedInList xs
/-- The recursion of _iter_nested_lists over the values of a dict. -/
def iterNestedInDict : List (String × PyVal) → List (List PyVal)
  | [] => []
  | kv :: kvs => iterNestedLists kv.2 ++ iterNestedInDict kvs
end

/-- The container field names _extract_points_kwh probes on a dict. -/
def containerKeys : List String :=
  ["data_points", "data", "points", "items", "history", "charging_sessions"]

/-- The candidate record lists of a dict payload: for each known
container field name in order, the field's value when it is a list. -/
def containerCands (h : PyVal) : List (List PyVal) :=
  match h with
  | .vDict kvs =>
    containerKeys.filterMap (fun k =>
      match dictGet kvs k with
      | some (.vList xs) => some xs
      | _ => none)
  | _ => []

/-- Every candidate record list _extract_points_kwh tries, in order: the
known container fields of a dict payload first, then the homogeneous
mapping sequences found by the recursive tree search. -/
def candidateLists (h : PyVal) : List (List PyVal) :=
  containerCands h ++ iterNestedLists h

/-- The candidate loop of _extract_points_kwh: each candidate is parsed
in turn; a raised error propagates, a nonempty result is returned at
once, and an empty one moves to the next candidate. -/
def firstNonempty : List (List PyVal) → Except PyErr (List Point)
  | [] => .ok []
  | c :: rest =>
    match extractPointsKwhFromList c with
    | .error e => .error e
    | .ok [] => firstNonempty rest
    | .ok pts => .ok pts

/-- _extract_points_kwh: an absent payload yields the empty series;
otherwise the container fields of a dict payload are tried first, then
every homogeneous mapping sequence of the tree, and the first candidate
yielding points wins; with no such candidate the series is empty. -/
def extractPointsKwh (history : PyVal) : Except PyErr (List Point) :=
  match history with
  | .vNone => .ok []
  | h => firstNonempty (candidateLists h)

/-- One point wrapped back into a record under the first-priority field
names, as the round-trip claim prescribes: the datetime instance goes
under timestamp, the energy under charge_energy_added. -/
def wrapPoint (p : Point) : PyVal :=
  .vDict [("timestamp", .vDt p.1), ("charge_energy_added", .vFloat p.2)]

/-- A series wrapped back into a minimal container with a data field. -/
def wrapSeries (pts : List Point) : PyVal :=
  .vDict [("data", .vList (pts.map wrapPoint))]

/-- The value of an energy field after the code's optional string parse:
a string is parsed with float, any other value is viewed through
isinstance(v, (int, float)). -/
def floatView : PyVal → Option ℚ
  | .vStr s => pyFloatOfString s
  | v => toNum v

mutual
/-- Every numeric leaf of a payload is non-negative, and every string
leaf that parses as a float parses to a non-negative value. -/
def NonnegVals : PyVal → Bool
  | .vInt n => decide (0 ≤ n)
  | .vFloat q => decide (0 ≤ q)
  | .vStr s =>
    match pyFloatOfString s with
    | some q => decide (0 ≤ q)
    | none => true
  | .vList xs => NonnegAllVals xs
  | .vDict kvs => NonnegDictVals kvs
  | _ => true
/-- NonnegVals over the elements of a list. -/
def NonnegAllVals : List PyVal → Bool
  | [] => true
  | x :: xs => NonnegVals x && NonnegAllVals xs
/-- NonnegVals over the values of a dict. -/
def NonnegDictVals : List (String × PyVal) → Bool
  | [] => true
  | kv :: kvs => NonnegVals kv.2 && NonnegDictVals kvs
end

/-- Equality of normalizer outcomes is decidable, so concrete runs can be
checked by evaluation. -/
instance (priority := low) : DecidableEq (Except PyErr (List Point)) := fun a b =>
  match a, b with
  | .error e1, .error e2 =>
    if h : e1 = e2 then .isTrue (by rw [h]) else .isFalse (fun hh => by cases hh; exact h rfl)
  | .ok x, .ok y =>
    if h : x = y then .isTrue (by rw [h]) else .isFalse (fun hh => by cases hh; exact h rfl)
  | .error _, .ok _ => .isFalse (fun hh => by cases hh)
  | .ok _, .error _ => .isFalse (fun hh => by cases hh)

/-- C1: the claim fails on the code.  In the record below the first
present timestamp field name is timestamp, and its value does not parse;
the claim says that the record is then discarded, but the code falls
through to the next present field name (time) and keeps the record. -/
theorem c1_counterexample :
    parseDatetimeFlexible (.vStr "not-a-date") = none ∧
    findWhen [("timestamp", .vStr "not-a-date"), ("time", .vInt 1700000000)] =
      some ⟨1700000000, some 0⟩ ∧
    parseItem (.vDict [("timestamp", .vStr "not-a-date"),
      ("time", .vInt 1700000000), ("kwh", .vInt 5)]) =
      some (⟨1700000000, some 0⟩, 1 / 200) := by
  refine ⟨by decide!, by decide!, by decide!⟩

/-- C2: the claim fails on the code.  On a payload whose records parse to
one naive timestamp (an ISO string with no offset) and one aware
timestamp (the same string with a Z suffix), list.sort compares the two
and raises TypeError, which the normalizer does not catch. -/
theorem c2_counterexample :
    extractPointsKwh (.vDict [("data", .vList
      [.vDict [("timestamp", .vStr "2024-01-15T10:00:00"), ("kwh", .vInt 1)],
       .vDict [("timestamp", .vStr "2024-01-15T10:00:00Z"), ("kwh", .vInt 2)]])]) =
      .error .typeError := by
  decide!

/-- C3: the claim fails on the code.  An ISO-8601 timestamp string with
no explicit offset is parsed by datetime.fromisoformat into a naive
datetime, so the returned point carries a timestamp that is not
timezone-aware (off = none). -/
theorem c3_counterexample :
    extractPointsKwh (.vDict [("data", .vList
      [.vDict [("timestamp", .vStr "2024-01-15T10:00:00"), ("kwh", .vInt 1)]])]) =
      .ok [(⟨1705312800, none⟩, 1 / 1000)] := by
  decide!

/-- C4: the claim fails on the code.  The payload is a homogeneous
mapping sequence whose single element holds, under the field a, an inner
homogeneous mapping sequence that parses to a point; the claim says the
inner sequence is a candidate, but _iter_nested_lists does not descend
into the elements of a homogeneous mapping sequence, so the normalizer
returns the empty series. -/
theorem c4_counterexample :
    extractPointsKwh (.vList [.vDict [("a", .vList
      [.vDict [("timestamp", .vInt 1700000000), ("kwh", .vInt 5)]])]]) = .ok [] ∧
    extractPointsKwhFromList [.vDict [("timestamp", .vInt 1700000000), ("kwh", .vInt 5)]] =
      .ok [(⟨1700000000, some 0⟩, 1 / 200)] := by
  refine ⟨by decide!, by decide!⟩

/-- C6: the claim fails on the code.  The code compares the signed value
with one trillion, not its magnitude: for the value minus two trillion
the claim prescribes the milliseconds branch (which would yield the
instant minus two billion seconds, as the second conjunct shows), but the
code takes the seconds branch and the conversion fails, yielding no
timestamp. -/
theorem c6_counterexample :
    parseDatetimeFlexible (.vInt (-2000000000000)) = none ∧
    pyFromTimestamp ((-2000000000000 : ℚ) / 1000) = some ⟨-2000000000, some 0⟩ := by
  refine ⟨by decide!, by decide!⟩

/-- C8: the claim fails on the code.  A record with a negative energy
value yields a point with negative energy_kwh: no non-negativity is
enforced. -/
theorem c8_counterexample :
    extractPointsKwh (.vDict [("data", .vList
      [.vDict [("timestamp", .vInt 1700000000), ("charge_energy_added", .vInt (-1))]])]) =
      .ok [(⟨1700000000, some 0⟩, -1)] ∧ ((-1 : ℚ) < 0) := by
  refine ⟨by decide!, by decide!⟩

/-- C9: the claim fails on the code.  The payload below normalizes to one
point, but wrapping that point back into a record (its timestamp a
datetime instance under timestamp, its energy under charge_energy_added)
inside a data container and normalizing again yields the empty series,
because a datetime instance matches no rule of _parse_datetime_flexible;
the round trip is not the identity. -/
theorem c9_counterexample :
    extractPointsKwh (.vDict [("data", .vList
      [.vDict [("timestamp", .vInt 1700000000), ("kwh", .vInt 5)]])]) =
      .ok [(⟨1700000000, some 0⟩, 1 / 200)] ∧
    extractPointsKwh (wrapSeries [(⟨1700000000, some 0⟩, 1 / 200)]) = .ok [] := by
  refine ⟨by decide!, by decide!⟩

/-- Helper: the time-key loop returns none exactly when every present
field among the scanned names has an unparsable value. -/
theorem whenLoop_eq_none_iff (item : List (String × PyVal)) :
    ∀ ks : List String, whenLoop item ks = none ↔
      ∀ tk ∈ ks, ∀ v, dictGet item tk = some v → parseDatetimeFlexible v = none := by
  intro ks
  induction ks with
  | nil => simp [whenLoop]
  | cons tk rest ih =>
    cases hg : dictGet item tk with
    | none =>
      simp only [whenLoop, hg, ih, List.mem_cons]
      constructor
      · rintro hr k (rfl | hk) v hv
        · rw [hg] at hv; exact absurd hv (by simp)
        · exact hr k hk v hv
      · intro hr k hk v hv
        exact hr k (Or.inr hk) v hv
    | some v =>
      cases hp : parseDatetimeFlexible v with
      | some d =>
        simp only [whenLoop, hg, hp]
        constructor
        · intro hr; exact absurd hr (by simp)
        · intro hr
          have := hr tk (by simp) v hg
          rw [hp] at this
          exact absurd this (by simp)
      | none =>
        simp only [whenLoop, hg, hp, ih, List.mem_cons]
        constructor
        · rintro hr k (rfl | hk) w hw
          · rw [hg] at hw
            cases hw; exact hp
          · exact hr k hk w hw
        · intro hr k hk w hw
          exact hr k (Or.inr hk) w hw

/-- C1 (amended): the timestamp loop tries every field name of the
priority list in order and falls through past a present field whose
value fails to parse; a record is treated as having no timestamp only
when every present timestamp field among the candidates fails to
parse. -/
theorem c1_amended :
    (∀ (item : List (String × PyVal)) (tk : String) (tks : List String) (v : PyVal),
      dictGet item tk = some v → parseDatetimeFlexible v = none →
      whenLoop item (tk :: tks) = whenLoop item tks) ∧
    (∀ item : List (String × PyVal), findWhen item = none ↔
      ∀ tk ∈ timeKeys, ∀ v, dictGet item tk = some v → parseDatetimeFlexible v = none) := by
  constructor
  · intro item tk tks v h1 h2
    simp [whenLoop, h1, h2]
  · intro item
    exact whenLoop_eq_none_iff item timeKeys

/-- Helper: the epoch branch always yields a UTC-aware datetime. -/
theorem parseEpochNum_off (q : ℚ) (d : PyDateTime) (h : parseEpochNum q = some d) :
    d.off = some 0 := by
  unfold parseEpochNum pyFromTimestamp at h
  split at h <;> split at h <;> cases h <;> rfl

/-- C3 (amended): a timestamp parsed from a numeric epoch value is
always timezone-aware with a UTC offset; a naive (offset-free) timestamp
can only arise from a string value (an ISO-8601 string with no explicit
offset), so not every returned timestamp is timezone-aware. -/
theorem c3_amended (v : PyVal) (d : PyDateTime) (h : parseDatetimeFlexible v = some d) :
    (isNumericVal v = true → d.off = some 0) ∧
    (d.off = none → ∃ s, v = PyVal.vStr s) := by
  cases v with
  | vNone => exact absurd h (by simp [parseDatetimeFlexible])
  | vInt n =>
    have := parseEpochNum_off _ _ h
    exact ⟨fun _ => this, fun hn => by rw [this] at hn; cases hn⟩
  | vFloat q =>
    have := parseEpochNum_off _ _ h
    exact ⟨fun _ => this, fun hn => by rw [this] at hn; cases hn⟩
  | vBool b =>
    have := parseEpochNum_off _ _ h
    exact ⟨fun _ => this, fun hn => by rw [this] at hn; cases hn⟩
  | vStr s =>
    exact ⟨fun hnum => by simp [isNumericVal, toNum] at hnum, fun _ => ⟨s, rfl⟩⟩
  | vDt d2 => exact absurd h (by simp [parseDatetimeFlexible])
  | vList xs => exact absurd h (by simp [parseDatetimeFlexible])
  | vDict kvs => exact absurd h (by simp [parseDatetimeFlexible])

/-- Witness for c3_amended at a concrete numeric input. -/
theorem c3_amended_witness :
    (isNumericVal (.vInt 1700000000) = true →
      (PyDateTime.mk 1700000000 (some 0)).off = some 0) ∧
    ((PyDateTime.mk 1700000000 (some 0)).off = none →
      ∃ s, PyVal.vInt 1700000000 = PyVal.vStr s) :=
  c3_amended (.vInt 1700000000) ⟨1700000000, some 0⟩ (by decide!)

/-- C4 (amended): the tree search yields a homogeneous mapping sequence
without descending into its elements (only maximal such sequences are
candidates, so one nested inside an element of another is not tried);
in particular a payload that is itself a bare sequence of mappings is
the single candidate, and when it parses to a nonempty point list the
normalizer returns exactly that list. -/
theorem c4_amended (xs : List PyVal) (hd : allDicts xs = true) :
    iterNestedLists (.vList xs) = [xs] ∧
    ∀ pts, extractPointsKwhFromList xs = .ok pts → pts ≠ [] →
      extractPointsKwh (.vList xs) = .ok pts := by
  constructor
  · simp [iterNestedLists, hd]
  · intro pts hok hne
    have hcands : candidateLists (.vList xs) = [xs] := by
      simp [candidateLists, containerCands, iterNestedLists, hd]
    show firstNonempty (candidateLists (.vList xs)) = .ok pts
    rw [hcands]
    cases pts with
    | nil => exact absurd rfl hne
    | cons p ps => simp [firstNonempty, hok]

/-- Witness for c4_amended at a concrete bare sequence of mappings. -/
theorem c4_amended_witness :
    iterNestedLists (.vList [.vDict [("timestamp", .vInt 1700000000), ("kwh", .vInt 5)]]) =
      [[.vDict [("timestamp", .vInt 1700000000), ("kwh", .vInt 5)]]] ∧
    ∀ pts, extractPointsKwhFromList
        [.vDict [("timestamp", .vInt 1700000000), ("kwh", .vInt 5)]] = .ok pts →
      pts ≠ [] →
      extractPointsKwh (.vList [.vDict [("timestamp", .vInt 1700000000), ("kwh", .vInt 5)]]) =
        .ok pts :=
  c4_amended [.vDict [("timestamp", .vInt 1700000000), ("kwh", .vInt 5)]] (by decide!)

/-- C6 (amended): the epoch branch compares the signed value (not its
magnitude) with one trillion, taking the milliseconds interpretation
above that bound and the seconds interpretation otherwise, and a
conversion outside the datetime range yields no timestamp; the values
1700000000 and 1700000000000 parse to the same UTC instant, which lies
before 2024. -/
theorem c6_amended :
    (∀ n : Int, parseDatetimeFlexible (.vInt n) =
      if (n : ℚ) > 1000000000000 then pyFromTimestamp ((n : ℚ) / 1000)
      else pyFromTimestamp (n : ℚ)) ∧
    parseDatetimeFlexible (.vInt 1700000000) = some ⟨1700000000, some 0⟩ ∧
    parseDatetimeFlexible (.vInt 1700000000000) = some ⟨1700000000, some 0⟩ ∧
    (1700000000 : ℚ) < epochOfCivil 2024 1 1 := by
  refine ⟨fun n => rfl, by decide!, by decide!, by decide!⟩

/-- Helper: a wrapped point never re-parses: its timestamp field holds a
datetime instance, which matches no rule of _parse_datetime_flexible,
and no other timestamp field name is present. -/
theorem parseItem_wrapPoint (p : Point) : parseItem (wrapPoint p) = none := rfl

/-- Helper: wrapped records parse to no points at all. -/
theorem wrap_filterMap (pts : List Point) :
    (pts.map wrapPoint).filterMap parseItem = [] := by
  induction pts with
  | nil => rfl
  | cons p ps ih => simp [parseItem_wrapPoint, ih]

/-- Helper: a wrapped series body is a homogeneous mapping sequence. -/
theorem wrap_allDicts (pts : List Point) : allDicts (pts.map wrapPoint) = true := by
  induction pts with
  | nil => rfl
  | cons p ps ih =>
    simp only [allDicts, List.map_cons, List.all_cons] at ih ⊢
    rw [ih]
    rfl

/-- C9 (amended): the round trip is not the identity but the constant
empty series: for every series, wrapping each point back into a record
under the first-priority field names (the datetime instance under
timestamp, the energy under charge_energy_added) inside a data container
and normalizing again yields the empty series, because a datetime
instance is not a parsable timestamp encoding. -/
theorem c9_amended (pts : List Point) : extractPointsKwh (wrapSeries pts) = .ok [] := by
  have hiter : iterNestedLists (.vList (pts.map wrapPoint)) = [pts.map wrapPoint] := by
    rw [iterNestedLists.eq_def]
    simp [wrap_allDicts]
  have hfl : extractPointsKwhFromList (pts.map wrapPoint) = .ok [] := by
    unfold extractPointsKwhFromList
    rw [wrap_filterMap]
    rfl
  have hnil : iterNestedInDict [] = [] := by
    rw [iterNestedInDict.eq_def]
  have htree : iterNestedLists (wrapSeries pts) = [pts.map wrapPoint] := by
    show iterNestedLists (.vDict [("data", .vList (pts.map wrapPoint))]) = _
    rw [iterNestedLists.eq_def]
    show iterNestedLists (.vList (pts.map wrapPoint)) ++ iterNestedInDict [] = _
    rw [hiter, hnil, List.append_nil]
  have hcands : candidateLists (wrapSeries pts) =
      [pts.map wrapPoint, pts.map wrapPoint] := by
    unfold candidateLists
    rw [htree]
    have hcont : containerCands (wrapSeries pts) = [pts.map wrapPoint] := by
      simp [containerCands, wrapSeries, containerKeys, dictGet]
    rw [hcont]
    rfl
  show firstNonempty (candidateLists (wrapSeries pts)) = .ok []
  rw [hcands]
  simp [firstNonempty, hfl]

/-- Helper: when the first present energy field name ends (after
lowercasing) in wh and its possibly string-parsed value is numeric, the
energy loop divides the value by 1000. -/
theorem findEnergy_wh (item : List (String × PyVal)) (ek : String) (v : PyVal) (q : ℚ)
    (h1 : firstEnergy item energyKeys = some (ek, v))
    (h2 : (ek.toLower).endsWith "wh" = true)
    (h3 : floatView v = some q) :
    findEnergy item = some (q / 1000) := by
  unfold findEnergy
  rw [h1]
  cases v with
  | vStr s =>
    have hs : pyFloatOfString s = some q := h3
    simp [parseEnergyVal, hs, h2, toNum]
  | vInt n =>
    have hq : (n : ℚ) = q := by simpa [floatView, toNum] using h3
    simp [parseEnergyVal, h2, toNum, hq]
  | vFloat q2 =>
    have hq : q2 = q := by simpa [floatView, toNum] using h3
    simp [parseEnergyVal, h2, toNum, hq]
  | vBool b =>
    have hq : (if b then (1 : ℚ) else 0) = q := by simpa [floatView, toNum] using h3
    simp [parseEnergyVal, h2, toNum, hq]
  | vNone => exact absurd h3 (by simp [floatView, toNum])
  | vDt d => exact absurd h3 (by simp [floatView, toNum])
  | vList xs => exact absurd h3 (by simp [floatView, toNum])
  | vDict kvs => exact absurd h3 (by simp [floatView, toNum])

/-- C7: when the first energy field name present in a record ends
case-insensitively in wh and its (possibly string-parsed) value is
numeric, the value is divided by 1000; in particular a record carrying
total_energy_Wh = 5000 with a valid timestamp yields a point with
energy 5 kWh. -/
theorem c7_wh_suffix_conversion :
    (∀ (item : List (String × PyVal)) (ek : String) (v : PyVal) (q : ℚ),
      firstEnergy item energyKeys = some (ek, v) →
      (ek.toLower).endsWith "wh" = true →
      floatView v = some q →
      findEnergy item = some (q / 1000)) ∧
    extractPointsKwhFromList
      [.vDict [("timestamp", .vInt 1700000000), ("total_energy_Wh", .vInt 5000)]] =
      .ok [(⟨1700000000, some 0⟩, 5)] :=
  ⟨findEnergy_wh, by decide!⟩

/-- C10: the wh-suffix rule also catches the kilowatt-hour field names
kwh, charged_kwh and energy_kWh, whose lowercasings end in wh, so their
numeric values are also divided by 1000: a record with kwh = 5 and a
valid timestamp yields energy 1/200 (0.005), not 5. -/
theorem c10_kwh_names_divided :
    (∀ (item : List (String × PyVal)) (v : PyVal) (q : ℚ) (k : String),
      k ∈ (["kwh", "charged_kwh", "energy_kWh"] : List String) →
      firstEnergy item energyKeys = some (k, v) →
      floatView v = some q →
      findEnergy item = some (q / 1000)) ∧
    extractPointsKwhFromList [.vDict [("timestamp", .vInt 1700000000), ("kwh", .vInt 5)]] =
      .ok [(⟨1700000000, some 0⟩, 1 / 200)] ∧
    ((1 / 200 : ℚ) ≠ 5) := by
  refine ⟨?_, by decide!, by decide!⟩
  intro item v q k hk h1 h3
  have hk2 : k = "kwh" ∨ k = "charged_kwh" ∨ k = "energy_kWh" := by simpa using hk
  have h2 : (k.toLower).endsWith "wh" = true := by
    rcases hk2 with rfl | rfl | rfl <;> decide!
  exact findEnergy_wh item k v q h1 h2 h3

/-- Witness for c7_wh_suffix_conversion: its first component applied at
a concrete record whose first present energy field is total_energy_Wh
with a string value of 5000. -/
theorem c7_witness :
    findEnergy [("total_energy_Wh", .vStr "5000")] = some (5000 / 1000) :=
  c7_wh_suffix_conversion.1 [("total_energy_Wh", .vStr "5000")] "total_energy_Wh"
    (.vStr "5000") 5000 rfl (by decide!) (by decide!)

/-- Helper: when every candidate's parsed point list has pairwise
comparable timestamps (no naive/aware mixture), the candidate loop
cannot raise. -/
theorem firstNonempty_ok_of_uniform (cs : List (List PyVal))
    (h : ∀ c ∈ cs, allSameKind (c.filterMap parseItem) = true) :
    ∃ pts, firstNonempty cs = .ok pts := by
  induction cs with
  | nil => exact ⟨[], rfl⟩
  | cons c rest ih =>
    have hc : allSameKind (c.filterMap parseItem) = true := h c (List.mem_cons_self c rest)
    have hfl : extractPointsKwhFromList c =
        .ok (List.insertionSort ptLe (c.filterMap parseItem)) := by
      unfold extractPointsKwhFromList pySortPoints
      rw [hc]
      simp
    obtain ⟨pts2, hrest⟩ := ih (fun d hd => h d (List.mem_cons_of_mem c hd))
    cases hs : List.insertionSort ptLe (c.filterMap parseItem) with
    | nil =>
      refine ⟨pts2, ?_⟩
      unfold firstNonempty
      rw [hfl, hs]
      exact hrest
    | cons p ps =>
      refine ⟨p :: ps, ?_⟩
      unfold firstNonempty
      rw [hfl, hs]

/-- C2 (amended): the normalizer returns normally - in the worst case an
empty series - for every payload whose candidate record lists do not mix
naive and aware timestamps; in that mixed case, and only there, the
final sort raises TypeError (see c2_counterexample), which is the one
uncaught exception of the code. -/
theorem c2_amended (h : PyVal)
    (hu : ∀ c ∈ candidateLists h, allSameKind (c.filterMap parseItem) = true) :
    ∃ pts, extractPointsKwh h = .ok pts := by
  cases h with
  | vNone => exact ⟨[], rfl⟩
  | vBool b => exact firstNonempty_ok_of_uniform _ hu
  | vInt n => exact firstNonempty_ok_of_uniform _ hu
  | vFloat q => exact firstNonempty_ok_of_uniform _ hu
  | vStr s => exact firstNonempty_ok_of_uniform _ hu
  | vDt d => exact firstNonempty_ok_of_uniform _ hu
  | vList xs => exact firstNonempty_ok_of_uniform _ hu
  | vDict kvs => exact firstNonempty_ok_of_uniform _ hu

/-- Witness for c2_amended at a concrete well-behaved payload. -/
theorem c2_amended_witness :
    ∃ pts, extractPointsKwh (.vDict [("data", .vList
      [.vDict [("timestamp", .vInt 1700000000), ("kwh", .vInt 5)]])]) = .ok pts :=
  c2_amended (.vDict [("data", .vList
    [.vDict [("timestamp", .vInt 1700000000), ("kwh", .vInt 5)]])]) (by decide!)

/-- Helper: inserting a point whose key misses t leaves the t-filter of
a list unchanged. -/
theorem filter_orderedInsert_ne (t : ℚ) (x : Point) (hx : ¬ ptKey x = t) :
    ∀ l : List Point,
      (List.orderedInsert ptLe x l).filter (fun p => decide (ptKey p = t)) =
        l.filter (fun p => decide (ptKey p = t)) := by
  intro l
  induction l with
  | nil => simp [hx]
  | cons b l ih =>
    by_cases hle : ptLe x b
    · simp [List.orderedInsert, hle, hx]
    · simp [List.orderedInsert, hle, List.filter_cons, ih]

/-- Helper: inserting a point whose key hits t into a sorted list puts
it in front of the other key-t points (the stability of the insertion:
the new point came earlier in the input). -/
theorem filter_orderedInsert_eq (t : ℚ) (x : Point) (hx : ptKey x = t) :
    ∀ l : List Point, List.Sorted ptLe l →
      (List.orderedInsert ptLe x l).filter (fun p => decide (ptKey p = t)) =
        x :: l.filter (fun p => decide (ptKey p = t)) := by
  intro l
  induction l with
  | nil => intro _; simp [hx]
  | cons b l ih =>
    intro hs
    by_cases hle : ptLe x b
    · simp [List.orderedInsert, hle, hx]
    · have hlt : ptKey b < ptKey x := lt_of_not_le hle
      have hbt : ¬ ptKey b = t := by
        intro hbt
        rw [hbt, hx] at hlt
        exact lt_irrefl t hlt
      simp [List.orderedInsert, hle, List.filter_cons, hbt, ih hs.of_cons]

/-- Helper: the insertion sort is stable: for every key value t, the
key-t points appear in the output in their input order. -/
theorem insertionSort_filter_key (t : ℚ) :
    ∀ l : List Point,
      (List.insertionSort ptLe l).filter (fun p => decide (ptKey p = t)) =
        l.filter (fun p => decide (ptKey p = t)) := by
  intro l
  induction l with
  | nil => rfl
  | cons x l ih =>
    by_cases hx : ptKey x = t
    · rw [List.insertionSort,
        filter_orderedInsert_eq t x hx _ (List.sorted_insertionSort ptLe l), ih]
      simp [hx]
    · rw [List.insertionSort, filter_orderedInsert_ne t x hx, ih]
      simp [hx]

/-- Helper: a successful run of _extract_points_kwh_from_list returns
the insertion sort of the parsed points. -/
theorem extractFromList_ok (c : List PyVal) (pts : List Point)
    (h : extractPointsKwhFromList c = .ok pts) :
    pts = List.insertionSort ptLe (c.filterMap parseItem) := by
  unfold extractPointsKwhFromList pySortPoints at h
  split at h
  · exact (Except.ok.inj h).symm
  · cases h

/-- Helper: a successful candidate loop returns the empty series or the
result of one of the candidates. -/
theorem firstNonempty_cases (cs : List (List PyVal)) (pts : List Point)
    (h : firstNonempty cs = .ok pts) :
    pts = [] ∨ ∃ c ∈ cs, extractPointsKwhFromList c = .ok pts := by
  induction cs with
  | nil => exact Or.inl (Except.ok.inj h).symm
  | cons c rest ih =>
    unfold firstNonempty at h
    cases hc : extractPointsKwhFromList c with
    | error e => rw [hc] at h; cases h
    | ok l =>
      rw [hc] at h
      cases l with
      | nil =>
        rcases ih h with h1 | ⟨d, hd, h2⟩
        · exact Or.inl h1
        · exact Or.inr ⟨d, List.mem_cons_of_mem c hd, h2⟩
      | cons p ps =>
        have h2 : Except.ok (ε := PyErr) (p :: ps) = Except.ok pts := h
        exact Or.inr ⟨c, List.mem_cons_self c rest, hc.trans h2⟩

/-- Helper: a successful normalizer run is a successful candidate loop
over the candidate lists of the payload. -/
theorem extract_ok_firstNonempty (h : PyVal) (pts : List Point)
    (hok : extractPointsKwh h = .ok pts) :
    firstNonempty (candidateLists h) = .ok pts := by
  cases h with
  | vNone =>
    have hpts : pts = [] := (Except.ok.inj hok).symm
    have h0 : candidateLists PyVal.vNone = [] := by
      unfold candidateLists containerCands
      rw [iterNestedLists.eq_def]
      rfl
    rw [hpts, h0]
    rfl
  | vBool b => exact hok
  | vInt n => exact hok
  | vFloat q => exact hok
  | vStr s => exact hok
  | vDt d => exact hok
  | vList xs => exact hok
  | vDict kvs => exact hok

/-- C5: every successfully returned series is sorted ascending by the
timestamp key, and the sort is stable: when the series is nonempty it is
the outcome of one candidate record list, and for every timestamp value
the points carrying it appear in the same relative order as the parsed
records of that candidate. -/
theorem c5_sorted_stable (h : PyVal) (pts : List Point)
    (hok : extractPointsKwh h = .ok pts) :
    List.Sorted ptLe pts ∧
    (pts ≠ [] → ∃ c ∈ candidateLists h,
      extractPointsKwhFromList c = .ok pts ∧
      ∀ t : ℚ, pts.filter (fun p => decide (ptKey p = t)) =
        (c.filterMap parseItem).filter (fun p => decide (ptKey p = t))) := by
  have hfn := extract_ok_firstNonempty h pts hok
  rcases firstNonempty_cases _ _ hfn with hemp | ⟨c, hc, hcl⟩
  · subst hemp
    exact ⟨List.sorted_nil, fun hne => absurd rfl hne⟩
  · have hform := extractFromList_ok c pts hcl
    refine ⟨?_, fun _ => ⟨c, hc, hcl, fun t => ?_⟩⟩
    · rw [hform]; exact List.sorted_insertionSort ptLe _
    · rw [hform, insertionSort_filter_key]

/-- Witness for c5_sorted_stable at a concrete payload whose two records
arrive out of order. -/
theorem c5_witness :
    List.Sorted ptLe
      [(⟨1700000000, some 0⟩, (1 : ℚ) / 200), (⟨1700000100, some 0⟩, 1 / 500)] ∧
    (([(⟨1700000000, some 0⟩, (1 : ℚ) / 200), (⟨1700000100, some 0⟩, 1 / 500)] :
        List Point) ≠ [] →
      ∃ c ∈ candidateLists (.vDict [("data", .vList
          [.vDict [("timestamp", .vInt 1700000100), ("kwh", .vInt 2)],
           .vDict [("timestamp", .vInt 1700000000), ("kwh", .vInt 5)]])]),
        extractPointsKwhFromList c =
          .ok [(⟨1700000000, some 0⟩, (1 : ℚ) / 200), (⟨1700000100, some 0⟩, 1 / 500)] ∧
        ∀ t : ℚ,
          ([(⟨1700000000, some 0⟩, (1 : ℚ) / 200), (⟨1700000100, some 0⟩, 1 / 500)] :
              List Point).filter (fun p => decide (ptKey p = t)) =
            (c.filterMap parseItem).filter (fun p => decide (ptKey p = t))) :=
  c5_sorted_stable
    (.vDict [("data", .vList
      [.vDict [("timestamp", .vInt 1700000100), ("kwh", .vInt 2)],
       .vDict [("timestamp", .vInt 1700000000), ("kwh", .vInt 5)]])])
    [(⟨1700000000, some 0⟩, (1 : ℚ) / 200), (⟨1700000100, some 0⟩, 1 / 500)]
    (by decide!)

/-- Helper: elementwise reading of NonnegAllVals. -/
theorem nonnegAll_mem {xs : List PyVal} (h : NonnegAllVals xs = true) :
    ∀ x ∈ xs, NonnegVals x = true := by
  induction xs with
  | nil => intro x hx; cases hx
  | cons y ys ih =>
    rw [NonnegAllVals, Bool.and_eq_true] at h
    rcases h with ⟨h1, h2⟩
    intro x hx
    rcases List.mem_cons.mp hx with rfl | hx2
    · exact h1
    · exact ih h2 x hx2

/-- Helper: a dict with non-negative values only hands out non-negative
values. -/
theorem nonnegDict_get {kvs : List (String × PyVal)} (h : NonnegDictVals kvs = true) :
    ∀ k v, dictGet kvs k = some v → NonnegVals v = true := by
  induction kvs with
  | nil => intro k v hv; cases hv
  | cons kv rest ih =>
    rw [NonnegDictVals, Bool.and_eq_true] at h
    rcases h with ⟨h1, h2⟩
    intro k v hv
    rcases kv with ⟨k2, w⟩
    rw [dictGet] at hv
    by_cases hk : k2 = k
    · rw [if_pos hk] at hv
      cases hv
      exact h1
    · rw [if_neg hk] at hv
      exact ih h2 k v hv

mutual
/-- Helper: the tree search only yields candidates whose elements come
from the payload, so a payload with non-negative values yields
candidates with non-negative values. -/
theorem iterNested_nonneg (v : PyVal) (hv : NonnegVals v = true) :
    ∀ c ∈ iterNestedLists v, ∀ x ∈ c, NonnegVals x = true := by
  cases v with
  | vList xs =>
    rw [NonnegVals] at hv
    intro c hc
    rw [iterNestedLists.eq_def] at hc
    by_cases hd : allDicts xs = true
    · simp only [hd, if_true] at hc
      rcases List.mem_singleton.mp hc with rfl
      exact nonnegAll_mem hv
    · simp only [hd, if_false] at hc
      exact iterNestedInList_nonneg xs hv c hc
  | vDict kvs =>
    rw [NonnegVals] at hv
    intro c hc
    rw [iterNestedLists.eq_def] at hc
    exact iterNestedInDict_nonneg kvs hv c hc
  | vNone => intro c hc; rw [iterNestedLists.eq_def] at hc; cases hc
  | vBool b => intro c hc; rw [iterNestedLists.eq_def] at hc; cases hc
  | vInt n => intro c hc; rw [iterNestedLists.eq_def] at hc; cases hc
  | vFloat q => intro c hc; rw [iterNestedLists.eq_def] at hc; cases hc
  | vStr s => intro c hc; rw [iterNestedLists.eq_def] at hc; cases hc
  | vDt d => intro c hc; rw [iterNestedLists.eq_def] at hc; cases hc
/-- Helper: iterNested_nonneg over the elements of a list. -/
theorem iterNestedInList_nonneg (xs : List PyVal) (h : NonnegAllVals xs = true) :
    ∀ c ∈ iterNestedInList xs, ∀ x ∈ c, NonnegVals x = true := by
  cases xs with
  | nil => intro c hc; rw [iterNestedInList] at hc; cases hc
  | cons y ys =>
    rw [NonnegAllVals, Bool.and_eq_true] at h
    rcases h with ⟨h1, h2⟩
    intro c hc
    rw [iterNestedInList] at hc
    rcases List.mem_append.mp hc with hc1 | hc2
    · exact iterNested_nonneg y h1 c hc1
    · exact iterNestedInList_nonneg ys h2 c hc2
/-- Helper: iterNested_nonneg over the values of a dict. -/
theorem iterNestedInDict_nonneg (kvs : List (String × PyVal)) (h : NonnegDictVals kvs = true) :
    ∀ c ∈ iterNestedInDict kvs, ∀ x ∈ c, NonnegVals x = true := by
  cases kvs with
  | nil => intro c hc; rw [iterNestedInDict] at hc; cases hc
  | cons kv rest =>
    rw [NonnegDictVals, Bool.and_eq_true] at h
    rcases h with ⟨h1, h2⟩
    intro c hc
    rw [iterNestedInDict] at hc
    rcases List.mem_append.mp hc with hc1 | hc2
    · exact iterNested_nonneg kv.2 h1 c hc1
    · exact iterNestedInDict_nonneg rest h2 c hc2
end

/-- Helper: the first present energy field is a field of the record. -/
theorem firstEnergy_get (item : List (String × PyVal)) :
    ∀ ks ek v, firstEnergy item ks = some (ek, v) → dictGet item ek = some v := by
  intro ks
  induction ks with
  | nil => intro ek v h; cases h
  | cons k rest ih =>
    intro ek v h
    rw [firstEnergy] at h
    cases hg : dictGet item k with
    | none => rw [hg] at h; exact ih ek v h
    | some w =>
      rw [hg] at h
      cases h
      exact hg

/-- Helper: the energy loop body returns a non-negative value when the
field value it reads is non-negative in the NonnegVals sense. -/
theorem parseEnergyVal_nonneg (ek : String) (v : PyVal) (e : ℚ)
    (hv : NonnegVals v = true) (h : parseEnergyVal ek v = some e) : 0 ≤ e := by
  cases v with
  | vInt n =>
    rw [NonnegVals, decide_eq_true_eq] at hv
    by_cases hwh : (ek.toLower).endsWith "wh" = true
    · simp [parseEnergyVal, toNum, hwh] at h
      subst h
      exact div_nonneg (by exact_mod_cast hv) (by norm_num)
    · simp [parseEnergyVal, toNum, hwh] at h
      subst h
      exact_mod_cast hv
  | vFloat q =>
    rw [NonnegVals, decide_eq_true_eq] at hv
    by_cases hwh : (ek.toLower).endsWith "wh" = true
    · simp [parseEnergyVal, toNum, hwh] at h
      subst h
      exact div_nonneg hv (by norm_num)
    · simp [parseEnergyVal, toNum, hwh] at h
      subst h
      exact hv
  | vBool b =>
    by_cases hwh : (ek.toLower).endsWith "wh" = true
    · simp [parseEnergyVal, toNum, hwh] at h
      subst h
      cases b <;> norm_num
    · simp [parseEnergyVal, toNum, hwh] at h
      subst h
      cases b <;> norm_num
  | vStr s =>
    cases hq : pyFloatOfString s with
    | none => simp [parseEnergyVal, hq] at h
    | some q =>
      simp only [NonnegVals, hq, decide_eq_true_eq] at hv
      by_cases hwh : (ek.toLower).endsWith "wh" = true
      · simp [parseEnergyVal, toNum, hq, hwh] at h
        subst h
        exact div_nonneg hv (by norm_num)
      · simp [parseEnergyVal, toNum, hq, hwh] at h
        subst h
        exact hv
  | vNone => simp [parseEnergyVal, toNum] at h
  | vDt d => simp [parseEnergyVal, toNum] at h
  | vList xs => simp [parseEnergyVal, toNum] at h
  | vDict kvs => simp [parseEnergyVal, toNum] at h

/-- Helper: a record parsed from a dict with non-negative values yields
a point with non-negative energy. -/
theorem parseItem_nonneg (x : PyVal) (p : Point)
    (hx : NonnegVals x = true) (h : parseItem x = some p) : 0 ≤ p.2 := by
  cases x with
  | vDict kvs =>
    rw [NonnegVals] at hx
    rw [parseItem] at h
    cases hw : findWhen kvs with
    | none => rw [hw] at h; cases h
    | some d =>
      rw [hw] at h
      cases he : findEnergy kvs with
      | none => rw [he] at h; cases h
      | some e =>
        rw [he] at h
        cases h
        rw [findEnergy] at he
        cases hfe : firstEnergy kvs energyKeys with
        | none => rw [hfe] at he; cases he
        | some kv =>
          rw [hfe] at he
          rcases kv with ⟨ek, v⟩
          have hget := firstEnergy_get kvs energyKeys ek v hfe
          have hvnn := nonnegDict_get hx ek v hget
          exact parseEnergyVal_nonneg ek v e hvnn he
  | vNone => cases h
  | vBool b => cases h
  | vInt n => cases h
  | vFloat q => cases h
  | vStr s => cases h
  | vDt d => cases h
  | vList xs => cases h

/-- Helper: container-field candidates of a payload with non-negative
values have non-negative elements. -/
theorem containerCands_nonneg (h : PyVal) (hv : NonnegVals h = true) :
    ∀ c ∈ containerCands h, ∀ x ∈ c, NonnegVals x = true := by
  intro c hc
  cases h with
  | vDict kvs =>
    rw [NonnegVals] at hv
    unfold containerCands at hc
    obtain ⟨k, _, hmatch⟩ := List.mem_filterMap.mp hc
    cases hg : dictGet kvs k with
    | none => rw [hg] at hmatch; cases hmatch
    | some w =>
      rw [hg] at hmatch
      cases w with
      | vList xs =>
        cases hmatch
        have hnn := nonnegDict_get hv k (.vList c) hg
        rw [NonnegVals] at hnn
        exact nonnegAll_mem hnn
      | vNone => cases hmatch
      | vBool b => cases hmatch
      | vInt n => cases hmatch
      | vFloat q => cases hmatch
      | vStr s => cases hmatch
      | vDt d => cases hmatch
      | vDict kvs2 => cases hmatch
  | vNone => unfold containerCands at hc; cases hc
  | vBool b => unfold containerCands at hc; cases hc
  | vInt n => unfold containerCands at hc; cases hc
  | vFloat q => unfold containerCands at hc; cases hc
  | vStr s => unfold containerCands at hc; cases hc
  | vDt d => unfold containerCands at hc; cases hc
  | vList xs => unfold containerCands at hc; cases hc

/-- Helper: every returned point comes from some record of the
successful candidate. -/
theorem extractFromList_mem (c : List PyVal) (pts : List Point) (p : Point)
    (h : extractPointsKwhFromList c = .ok pts) (hp : p ∈ pts) :
    ∃ x ∈ c, parseItem x = some p := by
  have hform := extractFromList_ok c pts h
  rw [hform, List.mem_insertionSort] at hp
  exact List.mem_filterMap.mp hp

/-- C8 (amended): the code enforces no non-negativity of its own, but
it preserves it: whenever every numeric leaf of the payload is
non-negative (and every numeric string parses to a non-negative value),
every returned point has non-negative energy_kwh; a negative field value
flows through to a negative point (see c8_counterexample). -/
theorem c8_amended (h : PyVal) (pts : List Point)
    (hv : NonnegVals h = true) (hok : extractPointsKwh h = .ok pts) :
    ∀ p ∈ pts, 0 ≤ p.2 := by
  intro p hp
  have hfn := extract_ok_firstNonempty h pts hok
  rcases firstNonempty_cases _ _ hfn with hemp | ⟨c, hc, hcl⟩
  · subst hemp; cases hp
  · obtain ⟨x, hx, hpx⟩ := extractFromList_mem c pts p hcl hp
    have hcand : NonnegVals x = true := by
      unfold candidateLists at hc
      rcases List.mem_append.mp hc with h1 | h2
      · exact containerCands_nonneg h hv c h1 x hx
      · exact iterNested_nonneg h hv c h2 x hx
    exact parseItem_nonneg x p hcand hpx

/-- Witness for c8_amended at a concrete all-non-negative payload. -/
theorem c8_witness :
    (0 : ℚ) ≤ ((⟨1700000000, some 0⟩, (1 : ℚ) / 200) : Point).2 :=
  c8_amended
    (.vDict [("data", .vList [.vDict [("timestamp", .vInt 1700000000), ("kwh", .vInt 5)]])])
    [(⟨1700000000, some 0⟩, (1 : ℚ) / 200)]
    (by decide!) (by decide!)
    ((⟨1700000000, some 0⟩, (1 : ℚ) / 200) : Point) (by simp)
